import Mathlib

/-!
# Verification of the zdata-client resilience layer

Shallow embedding of the resilience layer of the `zdata-client` TypeScript
library: the in-memory cache (`MemoryCache`, src/features/cache/memory-cache),
the retry policy (`RetryPolicy`, src/features/retry/retry-policy), the error
classes (src/core/errors), the validator (src/features/validation/validator),
the error handlers of `AuthService`, `ResourceRepository` and the legacy flat
`ZDataClient`, and the composed read path
`ZDataClient.findRecordById → RetryPolicy.execute → ResourceRepository.findRecordById`.

Time is modelled as epoch milliseconds (`Nat`); every method of the source that
reads `Date.now()` takes the current time `now` as an explicit argument.
JavaScript `Map` is modelled as an insertion-ordered association list with
unique keys: `Map.get/set/delete/size` become `mapGet/mapSet/mapDelete/length`,
where `mapSet` of a present key updates in place (preserving insertion order,
as `Map.set` does) and of an absent key appends.  JavaScript truthiness is
translated explicitly where the source relies on it
(`this.maxSize &&` — `undefined`/`0` falsy; `if (firstKey)` — `undefined`/the empty string
falsy; `!error.statusCode` — `undefined`/`0` falsy).
-/

/-- Model of `CacheEntry<T>` of cache.interface.ts: `{ value, expiresAt }` with
`expiresAt` in epoch milliseconds. -/
structure CacheEntry (V : Type) where
  value : V
  expiresAt : Nat
deriving Repr, DecidableEq

/-- The backing store of `MemoryCache`: a JavaScript `Map<string, CacheEntry>`
modelled as an insertion-ordered association list. -/
abbrev EntryMap (V : Type) := List (String × CacheEntry V)

/-- Model of `Map.get`: first (unique) binding of the key, if any. -/
def mapGet {V : Type} (l : EntryMap V) (k : String) : Option (CacheEntry V) :=
  match l with
  | [] => none
  | (k', e) :: rest => if k' = k then some e else mapGet rest k

/-- Model of `Map.set`: update in place when the key is present (a JS `Map` keeps the
original insertion position), append when absent. -/
def mapSet {V : Type} (l : EntryMap V) (k : String) (e : CacheEntry V) : EntryMap V :=
  match l with
  | [] => [(k, e)]
  | (k', e') :: rest => if k' = k then (k', e) :: rest else (k', e') :: mapSet rest k e

/-- Model of `Map.delete`: remove the (unique) binding of the key. -/
def mapDelete {V : Type} (l : EntryMap V) (k : String) : EntryMap V :=
  match l with
  | [] => []
  | (k', e') :: rest => if k' = k then rest else (k', e') :: mapDelete rest k

/-- Model of `MemoryCache` (src/features/cache/memory-cache.ts): backing map plus the
immutable configuration (`defaultTtlMs`, optional `maxSize`). -/
structure MemoryCache (V : Type) where
  cache : EntryMap V
  defaultTtlMs : Nat
  maxSize : Option Nat
deriving Repr, DecidableEq

namespace MemoryCache

variable {V : Type}

/-- Model of `MemoryCache.get`: absent key → `null`; expired entry (`Date.now() >
entry.expiresAt`) → delete it and return `null`; otherwise return the value.
Returns the possibly-updated cache alongside the result. -/
def get (c : MemoryCache V) (key : String) (now : Nat) :
    Option V × MemoryCache V :=
  match mapGet c.cache key with
  | none => (none, c)
  | some entry =>
    if now > entry.expiresAt then
      (none, { c with cache := mapDelete c.cache key })
    else
      (some entry.value, c)

/-- Model of `MemoryCache.has`: same expiry semantics as `get`, returning a Boolean. -/
def has (c : MemoryCache V) (key : String) (now : Nat) :
    Bool × MemoryCache V :=
  match mapGet c.cache key with
  | none => (false, c)
  | some entry =>
    if now > entry.expiresAt then
      (false, { c with cache := mapDelete c.cache key })
    else
      (true, c)

/-- Truthiness of `this.maxSize` (`number | undefined`): `undefined` and `0`
are falsy. -/
def maxSizeTruthy : Option Nat → Bool
  | none => false
  | some m => m != 0

/-- Model of `MemoryCache.set`: if `this.maxSize && this.cache.size >= this.maxSize`,
delete the first-inserted key (`this.cache.keys().next().value`) provided it is
truthy (defined and non-empty); then store the entry with
`expiresAt = Date.now() + (ttlMs ?? this.defaultTtlMs)`. -/
def set (c : MemoryCache V) (key : String) (value : V) (ttlMs : Option Nat)
    (now : Nat) : MemoryCache V :=
  let cache1 :=
    if maxSizeTruthy c.maxSize ∧ c.cache.length ≥ c.maxSize.getD 0 then
      match c.cache.head? with
      | some (firstKey, _) =>
        if firstKey = "" then c.cache else mapDelete c.cache firstKey
      | none => c.cache
    else
      c.cache
  let expiresAt := now + ttlMs.getD c.defaultTtlMs
  { c with cache := mapSet cache1 key ⟨value, expiresAt⟩ }

/-- Model of `MemoryCache.delete`. -/
def deleteKey (c : MemoryCache V) (key : String) : MemoryCache V :=
  { c with cache := mapDelete c.cache key }

/-- Model of `MemoryCache.clear`. -/
def clear (c : MemoryCache V) : MemoryCache V :=
  { c with cache := [] }

/-- Model of `MemoryCache.size`: `this.cache.size`, the number of physically stored
entries (expired or not). -/
def size (c : MemoryCache V) : Nat :=
  c.cache.length

/-- Model of `MemoryCache.cleanup`: delete every entry with `now > entry.expiresAt`
(the in-iteration deletes of the source loop amount to a filter). -/
def cleanup (c : MemoryCache V) (now : Nat) : MemoryCache V :=
  { c with cache := c.cache.filter (fun p => ! decide (now > p.2.expiresAt)) }

end MemoryCache

/-- Folding `MemoryCache.set` over a list of key/value pairs (all with the
same explicit TTL and the same clock reading). -/
def insertAll {V : Type} (c : MemoryCache V) (kvs : List (String × V))
    (ttlMs : Option Nat) (now : Nat) : MemoryCache V :=
  kvs.foldl (fun acc kv => acc.set kv.1 kv.2 ttlMs now) c

-- ## Error model (src/core/errors)

/-- Model of `ValidationErrorDetail` of api-errors.ts: `{ code, path, message }` with
path segments already string-coerced. -/
structure ValidationErrorDetail where
  code : String
  path : List String
  message : String
deriving Repr, DecidableEq

/-- The error classes thrown inside the client, as a closed sum:
`HttpError` (http-error.ts, optional `statusCode`), `InvalidCredentialsError`,
`ValidationError` (with its `errors` array) and `ApiClientError` (api-errors.ts),
plus plain `Error` values. -/
inductive JsError where
  | httpError (message : String) (statusCode : Option Nat)
  | invalidCredentials (message : String)
  | validationError (message : String) (errors : List ValidationErrorDetail)
  | apiClientError (message : String) (statusCode : Option Nat)
  | genericError (message : String)
deriving Repr, DecidableEq

/-- The `name` property of each error class (`HttpError`,
`InvalidCredentialsError`, `ValidationError`, `ApiClientError`; a plain
`Error` has name `Error`). -/
def errorName : JsError → String
  | .httpError .. => "HttpError"
  | .invalidCredentials .. => "InvalidCredentialsError"
  | .validationError .. => "ValidationError"
  | .apiClientError .. => "ApiClientError"
  | .genericError .. => "Error"

/-- The `statusCode` property (`number | undefined`) as read by
`error.statusCode` on an `Error & { statusCode?: number }`. -/
def errorStatusCode : JsError → Option Nat
  | .httpError _ sc => sc
  | .apiClientError _ sc => sc
  | _ => none

/-- The `errors` array of a `ValidationError`, when the error is one. -/
def validationDetails : JsError → Option (List ValidationErrorDetail)
  | .validationError _ errs => some errs
  | _ => none

-- ## RetryPolicy (src/features/retry/retry-policy.ts)

/-- Model of `RetryConfig`.  `maxAttempts` is used only as a loop bound and is modelled
as `Nat`; the delay fields are modelled as exact rationals. -/
structure RetryConfig where
  maxAttempts : Nat
  baseDelayMs : ℚ
  maxDelayMs : ℚ
  backoffMultiplier : ℚ
  jitterMs : ℚ
deriving Repr, DecidableEq

/-- Model of `DEFAULT_RETRY_CONFIG = { maxAttempts: 3, baseDelayMs: 1000, maxDelayMs:
10000, backoffMultiplier: 2, jitterMs: 100 }`. -/
def DEFAULT_RETRY_CONFIG : RetryConfig :=
  { maxAttempts := 3, baseDelayMs := 1000, maxDelayMs := 10000
    backoffMultiplier := 2, jitterMs := 100 }

/-- Model of `RetryPolicy.isRetryableStatusCode`: `!error.statusCode` (absent or `0`,
both falsy) → retryable network error; otherwise membership in
`RETRYABLE_STATUS_CODES = {408, 429, 502, 503, 504}`. -/
def RetryPolicy.isRetryableStatusCode (e : JsError) : Bool :=
  match errorStatusCode e with
  | none => true
  | some sc =>
    if sc = 0 then true
    else [408, 429, 502, 503, 504].contains sc

/-- Model of `RetryPolicy.shouldRetry`: an `Error` whose `name` is `HttpError` and
whose status code is retryable.  (Thrown non-`Error` values are outside the
model; every `JsError` is an `Error` instance.) -/
def RetryPolicy.shouldRetry (e : JsError) : Bool :=
  errorName e == "HttpError" && RetryPolicy.isRetryableStatusCode e

/-- Model of `RetryPolicy.calculateDelay`:
`min(baseDelayMs * backoffMultiplier^(attempt-1) + Math.random() * jitterMs,
maxDelayMs)`, with the `Math.random()` draw passed in as `rand`. -/
def RetryPolicy.calculateDelay (cfg : RetryConfig) (attempt : Nat) (rand : ℚ) : ℚ :=
  let exponentialDelay := cfg.baseDelayMs * cfg.backoffMultiplier ^ (attempt - 1)
  let delayWithJitter := exponentialDelay + rand * cfg.jitterMs
  min delayWithJitter cfg.maxDelayMs

/-- The loop body of `RetryPolicy.execute`, counting invocations of the
operation.  `op n` is the outcome of the operation on its `n`-th invocation
(0-indexed); the second component of the result is the total number of
invocations performed.  The fuel argument is `maxAttempts - (attempt - 1)`:
fuel `1` means the current attempt is the final one (`attempt ===
this.config.maxAttempts` breaks with `lastError`); fuel `0` means the loop
never runs and `lastError` (or, when null, a fresh unknown-retry `Error`) is thrown with
`lastError = null`. -/
def RetryPolicy.executeGo {α : Type} (op : Nat → Except JsError α) :
    Nat → Nat → Except JsError α × Nat
  | calls, 0 => (Except.error (JsError.genericError "Unknown retry error"), calls)
  | calls, remaining + 1 =>
    match op calls with
    | Except.ok v => (Except.ok v, calls + 1)
    | Except.error e =>
      if remaining = 0 ∨ RetryPolicy.shouldRetry e = false then
        (Except.error e, calls + 1)
      else
        RetryPolicy.executeGo op (calls + 1) remaining

/-- Model of `RetryPolicy.execute` for an operation with deterministic per-invocation
outcomes, returning the final outcome and the number of invocations. -/
def RetryPolicy.execute {α : Type} (cfg : RetryConfig)
    (op : Nat → Except JsError α) : Except JsError α × Nat :=
  RetryPolicy.executeGo op 0 cfg.maxAttempts

-- ## Validator (src/features/validation/validator.ts)

/-- One issue of a `ZodError` after the `path.map(String)` coercion. -/
structure ZodIssue where
  code : String
  path : List String
  message : String
deriving Repr, DecidableEq

/-- Outcome of `schema.parse(data)`: success, a thrown `ZodError` with its
issue list, or a thrown non-Zod error. -/
inductive ParseOutcome (α : Type) where
  | ok (value : α)
  | zodError (issues : List ZodIssue)
  | otherError (e : JsError)

/-- Model of `Validator.mapZodErrorsToValidationDetails`: one detail per issue,
in order. -/
def Validator.mapZodErrorsToValidationDetails (issues : List ZodIssue) :
    List ValidationErrorDetail :=
  issues.map (fun i => ⟨i.code, i.path, i.message⟩)

/-- Model of `Validator.validate`: success returns the value; a `ZodError` becomes a
`ValidationError` with message Validation failed and the details; any other error is
rethrown. -/
def Validator.validate {α : Type} (out : ParseOutcome α) : Except JsError α :=
  match out with
  | .ok v => Except.ok v
  | .zodError issues =>
    Except.error (JsError.validationError "Validation failed"
      (Validator.mapZodErrorsToValidationDetails issues))
  | .otherError e => Except.error e

/-- Model of `Validator.validateSafely`: like `validate` but a non-Zod failure becomes
a `ValidationError` with the unknown-validation message whose `errors` array is the
constructor default `[]`. -/
def Validator.validateSafely {α : Type} (out : ParseOutcome α) : Except JsError α :=
  match out with
  | .ok v => Except.ok v
  | .zodError issues =>
    Except.error (JsError.validationError "Validation failed"
      (Validator.mapZodErrorsToValidationDetails issues))
  | .otherError _ =>
    Except.error (JsError.validationError "Unknown validation error" [])

-- ## Error handlers of AuthService, ResourceRepository and the legacy client

/-- The catch block of `AuthService.login`: an `HttpError` with
`statusCode === 401` becomes an `InvalidCredentialsError` with the fixed
invalid-email-or-password message; any other `HttpError` becomes
`ApiClientError(message, statusCode)`; everything else is rethrown. -/
def AuthService.loginCatch : JsError → JsError
  | .httpError m sc =>
    if sc = some 401 then JsError.invalidCredentials "Invalid email or password"
    else JsError.apiClientError m sc
  | e => e

/-- The catch block of `AuthService.register`: every `HttpError` becomes
`ApiClientError(message, statusCode)` with no 401 special case; everything
else is rethrown. -/
def AuthService.registerCatch : JsError → JsError
  | .httpError m sc => JsError.apiClientError m sc
  | e => e

/-- Model of `ResourceRepository.handleError`: an `HttpError` becomes
`ApiClientError(message, statusCode)` regardless of the status; any other
`Error` is returned unchanged. -/
def ResourceRepository.handleError : JsError → JsError
  | .httpError m sc => JsError.apiClientError m sc
  | e => e

/-- The `error.response` of an axios failure as inspected by the legacy flat
client: HTTP status plus the optional `message` and `errors` fields of the
response body. -/
structure AxiosErrorResponse where
  status : Nat
  message : Option String
  errors : Option (List ValidationErrorDetail)
deriving Repr, DecidableEq

/-- Model of `ZDataClient.handleHttpError` of the legacy flat client (src/client.ts):
no response → network `ApiClientError`; then a switch on the status with
dedicated cases for 401, 400, 404, 429, 500, 503 and a default. -/
def ZDataClient.handleHttpError (response : Option AxiosErrorResponse) : JsError :=
  match response with
  | none => JsError.apiClientError "Network error: Unable to connect to the server" none
  | some r =>
    match r.status with
    | 401 => JsError.invalidCredentials
        (r.message.getD "Authentication failed: Invalid credentials")
    | 400 => JsError.validationError
        (r.message.getD "Validation failed: Invalid request data")
        (r.errors.getD [])
    | 404 => JsError.apiClientError "Resource not found" (some 404)
    | 429 => JsError.apiClientError "Rate limit exceeded: Too many requests" (some 429)
    | 500 => JsError.apiClientError "Internal server error: Please try again later" (some 500)
    | 503 => JsError.apiClientError "Service unavailable: Server is temporarily down" (some 503)
    | s => JsError.apiClientError
        (r.message.getD ("HTTP error " ++ toString s ++ ": Request failed"))
        (some s)

-- ## The composed read path (services/zdata-client.ts + resource-repository.ts)

/-- Model of `CACHE_TTL_MS = 300_000` of `ResourceRepository`. -/
def ResourceRepository.CACHE_TTL_MS : Nat := 300000

/-- One invocation of `ResourceRepository.findRecordById` with the cache
enabled: consult `cache.has` then `cache.get` (each with its lazy-expiry side
effect); on a hit return the cached value without touching the transport; on a
miss perform the request (`script n` is the transport outcome of the `n`-th
request), cache a successful result under the key with `CACHE_TTL_MS`, and
wrap a failure through `handleError`.  State is the cache plus the number of
transport requests performed. -/
def ResourceRepository.findRecordByIdOnce {V : Type}
    (script : Nat → Except JsError V) (cacheKey : String) (now : Nat)
    (st : MemoryCache V × Nat) : Except JsError V × (MemoryCache V × Nat) :=
  let calls := st.2
  let doRequest := fun (c : MemoryCache V) =>
    match script calls with
    | Except.ok v =>
      (Except.ok v,
        (c.set cacheKey v (some ResourceRepository.CACHE_TTL_MS) now, calls + 1))
    | Except.error e =>
      (Except.error (ResourceRepository.handleError e), (c, calls + 1))
  let hasRes := st.1.has cacheKey now
  if hasRes.1 then
    let getRes := hasRes.2.get cacheKey now
    match getRes.1 with
    | some v => (Except.ok v, (getRes.2, calls))
    | none => doRequest getRes.2
  else
    doRequest hasRes.2

/-- Model of `RetryPolicy.executeGo` for a stateful operation, threading the state
through the attempts. -/
def RetryPolicy.executeGoS {V σ : Type} (opS : σ → Except JsError V × σ) :
    σ → Nat → Except JsError V × σ
  | st, 0 => (Except.error (JsError.genericError "Unknown retry error"), st)
  | st, remaining + 1 =>
    match opS st with
    | (Except.ok v, st1) => (Except.ok v, st1)
    | (Except.error e, st1) =>
      if remaining = 0 ∨ RetryPolicy.shouldRetry e = false then
        (Except.error e, st1)
      else
        RetryPolicy.executeGoS opS st1 remaining

/-- Model of `ZDataClient.findRecordById` with `enableCache` and `enableRetry` both on:
`executeWithRetry(() => resourceRepository.findRecordById(resourceName, recordId))`
with the default retry configuration and cache key
`getCacheKey(resourceName, recordId) = resourceName, a colon, recordId`. -/
def ZDataClient.findRecordById {V : Type} (script : Nat → Except JsError V)
    (resourceName recordId : String) (now : Nat) (st : MemoryCache V × Nat) :
    Except JsError V × (MemoryCache V × Nat) :=
  RetryPolicy.executeGoS
    (ResourceRepository.findRecordByIdOnce script (resourceName ++ ":" ++ recordId) now)
    st DEFAULT_RETRY_CONFIG.maxAttempts

/-- A transport script for the end-to-end scenario of the specification:
the request fails with `HttpError` status 503 on the first two invocations
and succeeds with the record `42` from the third invocation on. -/
def script503 : Nat → Except JsError Nat :=
  fun n =>
    if n < 2 then Except.error (JsError.httpError "Service Unavailable" (some 503))
    else Except.ok 42

-- ## Association-list lemmas

theorem mapGet_mapSet_self {V : Type} (l : EntryMap V) (k : String)
    (e : CacheEntry V) : mapGet (mapSet l k e) k = some e := by
  induction l with
  | nil => simp [mapGet, mapSet]
  | cons hd tl ih =>
    by_cases h : hd.1 = k
    · simp [mapSet, mapGet, h]
    · simp [mapSet, mapGet, h, ih]

theorem mapGet_eq_none_of_not_mem {V : Type} (l : EntryMap V) (k : String)
    (h : k ∉ l.map Prod.fst) : mapGet l k = none := by
  induction l with
  | nil => simp [mapGet]
  | cons hd tl ih =>
    simp only [List.map_cons, List.mem_cons] at h
    push_neg at h
    have hne : hd.1 ≠ k := fun he => h.1 he.symm
    simp [mapGet, hne, ih h.2]

theorem not_mem_of_mapGet_eq_none {V : Type} (l : EntryMap V) (k : String)
    (h : mapGet l k = none) : k ∉ l.map Prod.fst := by
  induction l with
  | nil => simp
  | cons hd tl ih =>
    simp only [mapGet] at h
    by_cases he : hd.1 = k
    · simp [he] at h
    · simp only [he, if_false] at h
      simp only [List.map_cons, List.mem_cons]
      push_neg
      exact ⟨fun hk => he hk.symm, ih h⟩

theorem mapSet_of_mapGet_eq_none {V : Type} (l : EntryMap V) (k : String)
    (e : CacheEntry V) (h : mapGet l k = none) :
    mapSet l k e = l ++ [(k, e)] := by
  induction l with
  | nil => simp [mapSet]
  | cons hd tl ih =>
    simp only [mapGet] at h
    by_cases he : hd.1 = k
    · simp [he] at h
    · simp only [he, if_false] at h
      simp [mapSet, he, ih h]

theorem mapGet_append_of_none {V : Type} (l1 l2 : EntryMap V) (k : String)
    (h : mapGet l1 k = none) :
    mapGet (l1 ++ l2) k = mapGet l2 k := by
  induction l1 with
  | nil => simp
  | cons hd tl ih =>
    simp only [mapGet] at h
    by_cases he : hd.1 = k
    · simp [he] at h
    · simp only [he, if_false] at h
      simp [mapGet, he, ih h]

theorem mapGet_append_none {V : Type} (l1 l2 : EntryMap V) (k : String)
    (h1 : mapGet l1 k = none) (h2 : mapGet l2 k = none) :
    mapGet (l1 ++ l2) k = none := by
  rw [mapGet_append_of_none l1 l2 k h1]; exact h2

theorem mapDelete_cons_self {V : Type} (k : String) (e : CacheEntry V)
    (rest : EntryMap V) : mapDelete ((k, e) :: rest) k = rest := by
  simp [mapDelete]

theorem mapDelete_length {V : Type} (l : EntryMap V) (k : String)
    (e : CacheEntry V) (h : mapGet l k = some e) :
    (mapDelete l k).length + 1 = l.length := by
  induction l with
  | nil => simp [mapGet] at h
  | cons hd t ih =>
    by_cases he : hd.1 = k
    · simp [mapDelete, he]
    · simp only [mapGet, he, if_false] at h
      simp only [mapDelete, he, if_false, List.length_cons]
      have := ih h
      omega

theorem mapGet_filter {V : Type} (l : EntryMap V)
    (p : String × CacheEntry V → Bool) (k : String)
    (hnodup : (l.map Prod.fst).Nodup) :
    mapGet (l.filter p) k
      = match mapGet l k with
        | some e => if p (k, e) then some e else none
        | none => none := by
  induction l with
  | nil => simp [mapGet]
  | cons hd t ih =>
    rw [List.map_cons] at hnodup
    obtain ⟨hhd, htl⟩ := List.nodup_cons.mp hnodup
    by_cases he : hd.1 = k
    · subst he
      have hnone : mapGet (t.filter p) hd.1 = none := by
        apply mapGet_eq_none_of_not_mem
        intro hmem
        exact hhd (List.map_subset _ (List.filter_sublist (l := t)).subset hmem)
      by_cases hp : p hd
      · simp [List.filter_cons, hp, mapGet]
      · simp [List.filter_cons, hp, mapGet, hnone]
    · by_cases hp : p hd
      · simp [List.filter_cons, hp, mapGet, he, ih htl]
      · simp [List.filter_cons, hp, mapGet, he, ih htl]

theorem mapGet_entries {V : Type} (kvs : List (String × V)) (exp : Nat)
    (hnodup : (kvs.map Prod.fst).Nodup) (kv : String × V) (hmem : kv ∈ kvs) :
    mapGet (kvs.map (fun p => (p.1, (⟨p.2, exp⟩ : CacheEntry V)))) kv.1
      = some ⟨kv.2, exp⟩ := by
  induction kvs with
  | nil => cases hmem
  | cons hd t ih =>
    rw [List.map_cons] at hnodup
    obtain ⟨hhd, htl⟩ := List.nodup_cons.mp hnodup
    rcases List.mem_cons.mp hmem with rfl | hmem'
    · simp [mapGet]
    · have hne : hd.1 ≠ kv.1 := by
        intro he
        exact hhd (he ▸ List.mem_map_of_mem Prod.fst hmem')
      simp only [List.map_cons, mapGet, hne, if_false]
      exact ih htl hmem'

theorem set_below_capacity {V : Type} (m d : Nat) (init : EntryMap V)
    (k : String) (v : V) (ttl now : Nat)
    (hlt : init.length < m) (hfresh : mapGet init k = none) :
    MemoryCache.set ⟨init, d, some m⟩ k v (some ttl) now
      = ⟨init ++ [(k, ⟨v, now + ttl⟩)], d, some m⟩ := by
  unfold MemoryCache.set
  have hcond : ¬ (MemoryCache.maxSizeTruthy (some m) = true
      ∧ init.length ≥ m) := by
    intro hc
    have := hc.2
    omega
  simp only [Option.getD_some, if_neg hcond]
  rw [mapSet_of_mapGet_eq_none init k _ hfresh]

theorem insertAll_below_capacity {V : Type} (m d : Nat) (init : EntryMap V)
    (kvs : List (String × V)) (ttl now : Nat)
    (hcap : init.length + kvs.length ≤ m)
    (hfresh : ∀ kv ∈ kvs, mapGet init kv.1 = none)
    (hnodup : (kvs.map Prod.fst).Nodup) :
    insertAll ⟨init, d, some m⟩ kvs (some ttl) now
      = ⟨init ++ kvs.map (fun p => (p.1, (⟨p.2, now + ttl⟩ : CacheEntry V))),
          d, some m⟩ := by
  induction kvs generalizing init with
  | nil => simp [insertAll]
  | cons kv t ih =>
    rw [List.map_cons] at hnodup
    obtain ⟨hhd, htl⟩ := List.nodup_cons.mp hnodup
    have hstep : insertAll ⟨init, d, some m⟩ (kv :: t) (some ttl) now
        = insertAll (MemoryCache.set ⟨init, d, some m⟩ kv.1 kv.2 (some ttl) now)
            t (some ttl) now := by
      simp [insertAll]
    rw [hstep,
      set_below_capacity m d init kv.1 kv.2 ttl now
        (by simp only [List.length_cons] at hcap; omega)
        (hfresh kv (List.mem_cons_self kv t))]
    have happ := ih (init ++ [(kv.1, (⟨kv.2, now + ttl⟩ : CacheEntry V))])
      (by
        simp only [List.length_append, List.length_cons, List.length_nil]
        simp only [List.length_cons] at hcap
        omega)
      (by
        intro kv' hkv'
        apply mapGet_append_none
        · exact hfresh kv' (List.mem_cons_of_mem kv hkv')
        · apply mapGet_eq_none_of_not_mem
          intro hmem
          simp only [List.map_cons, List.map_nil, List.mem_singleton] at hmem
          exact hhd (hmem ▸ List.mem_map_of_mem Prod.fst hkv'))
      htl
    rw [happ]
    simp

-- ## Claim theorems

/-- C2, counterexample. --  The claim states that a value set with TTL
`ttlMs` reports absence whenever the elapsed time `t` satisfies `t ≥ ttlMs`,
in particular at the exact boundary `t = ttlMs`.  The source deletes an entry
only when `Date.now() > entry.expiresAt` (strict), so at `t = ttlMs` exactly
the entry is still returned: setting with `ttlMs = 5` at time `0` and reading
at time `5` yields the value. -/
theorem c2_counterexample :
    ¬ (∀ (c : MemoryCache Nat) (k : String) (v ttl now t : Nat),
        0 < ttl → ttl ≤ t →
        ((MemoryCache.set c k v (some ttl) now).get k (now + t)).1 = none) := by
  intro h
  have h5 := h ⟨[], 1000, none⟩ "k" 42 5 0 5 (by decide) (by decide)
  revert h5
  decide

/-- C2 (amended). --  For every `ttlMs > 0`, every key and every value, after
`set(key, value, ttlMs)` at time `now`, a read at time `now + t` returns the
value (and `has` is `true`) whenever `t ≤ ttlMs`, and reports absence (`null`,
`has` false) whenever `t > ttlMs`; at the exact boundary `t = ttlMs` the entry
is still present (the expiry comparison is strict). -/
theorem c2_cache_ttl {V : Type} (c : MemoryCache V) (k : String) (v : V)
    (ttl now t : Nat) (_httl : 0 < ttl) :
    (((MemoryCache.set c k v (some ttl) now).get k (now + t)).1
        = if t ≤ ttl then some v else none)
    ∧ (((MemoryCache.set c k v (some ttl) now).has k (now + t)).1
        = decide (t ≤ ttl)) := by
  have hget : mapGet (MemoryCache.set c k v (some ttl) now).cache k
      = some ⟨v, now + ttl⟩ := by
    unfold MemoryCache.set
    simp only [Option.getD_some]
    exact mapGet_mapSet_self _ k _
  have hlt : (now + t > now + ttl) ↔ ¬ (t ≤ ttl) := by omega
  constructor
  · simp only [MemoryCache.get, hget]
    by_cases hle : t ≤ ttl
    · rw [if_neg (by omega), if_pos hle]
    · rw [if_pos (by omega), if_neg hle]
  · simp only [MemoryCache.has, hget]
    by_cases hle : t ≤ ttl
    · rw [if_neg (by omega)]
      simp [hle]
    · rw [if_pos (by omega)]
      simp [hle]

/-- Witness for `c2_cache_ttl` at `ttl = 5`, `now = 0`, `t = 3`. -/
theorem c2_cache_ttl_witness :
    ((((⟨[], 1000, none⟩ : MemoryCache Nat).set "k" 7 (some 5) 0).get
        "k" (0 + 3)).1 = if 3 ≤ 5 then some 7 else none)
    ∧ ((((⟨[], 1000, none⟩ : MemoryCache Nat).set "k" 7 (some 5) 0).has
        "k" (0 + 3)).1 = decide (3 ≤ 5)) :=
  c2_cache_ttl ⟨[], 1000, none⟩ "k" 7 5 0 3 (by decide)

theorem insertAll_append {V : Type} (c : MemoryCache V)
    (l1 l2 : List (String × V)) (ttl : Option Nat) (now : Nat) :
    insertAll c (l1 ++ l2) ttl now = insertAll (insertAll c l1 ttl now) l2 ttl now := by
  simp [insertAll, List.foldl_append]

theorem set_at_capacity {V : Type} (m d : Nat) (k0 : String) (e0 : CacheEntry V)
    (tl : EntryMap V) (k : String) (v : V) (ttl now : Nat)
    (hm : m ≠ 0) (hcap : tl.length + 1 ≥ m) (hk0 : k0 ≠ "")
    (hfresh : mapGet tl k = none) :
    MemoryCache.set ⟨(k0, e0) :: tl, d, some m⟩ k v (some ttl) now
      = ⟨tl ++ [(k, ⟨v, now + ttl⟩)], d, some m⟩ := by
  unfold MemoryCache.set
  have hcond : MemoryCache.maxSizeTruthy (some m) = true
      ∧ ((k0, e0) :: tl).length ≥ m := by
    constructor
    · simp [MemoryCache.maxSizeTruthy, hm]
    · simp only [List.length_cons]
      omega
  simp only [Option.getD_some, if_pos hcond, List.head?_cons]
  rw [if_neg hk0, mapDelete_cons_self, mapSet_of_mapGet_eq_none tl k _ hfresh]

theorem get_of_mapGet_some {V : Type} (L : EntryMap V) (d : Nat)
    (ms : Option Nat) (k : String) (e : CacheEntry V) (now : Nat)
    (hmg : mapGet L k = some e) (hno : ¬ now > e.expiresAt) :
    (MemoryCache.get ⟨L, d, ms⟩ k now).1 = some e.value := by
  simp [MemoryCache.get, hmg, hno]

/-- C3, counterexample. --  The claim states that `set` evicts only when the
key being set is new, and that a `set` whose key is already present overwrites
in place without evicting.  The source evicts whenever
`this.cache.size >= this.maxSize`, without checking whether the key is
already present: with `maxSize = 2` and entries `a`, `b`, overwriting `b`
evicts `a`. -/
theorem c3_counterexample :
    ((((insertAll (⟨[], 1000, some 2⟩ : MemoryCache Nat)
          [("a", 1), ("b", 2)] (some 10) 0).set "b" 3 (some 10) 0).get "a" 0).1
        = none)
    ∧ ((((insertAll (⟨[], 1000, some 2⟩ : MemoryCache Nat)
          [("a", 1), ("b", 2)] (some 10) 0).set "b" 3 (some 10) 0).get "b" 0).1
        = some 3) := by
  decide

/-- C3 (amended). --  With capacity `maxEntries = N ≥ 1`, a `set` performed
when the cache holds `N` entries evicts the earliest-inserted entry whether or
not the key being set is new (eviction is skipped only when the
earliest-inserted key is the empty string, which is falsy in the source).
Consequently, inserting `N+1` distinct keys (the first of which is non-empty)
into an empty cache with `maxEntries = N` makes exactly the first-inserted key
unreadable while the other `N` remain readable. -/
theorem c3_fifo_eviction {V : Type} (N : Nat) (hN : 1 ≤ N) (d : Nat)
    (k0 : String) (v0 : V) (rest : List (String × V))
    (hlen : rest.length = N)
    (hnodup : (k0 :: rest.map Prod.fst).Nodup)
    (hk0 : k0 ≠ "") (ttl now : Nat) :
    (((insertAll ⟨[], d, some N⟩ ((k0, v0) :: rest) (some ttl) now).get
        k0 now).1 = none)
    ∧ ∀ kv ∈ rest,
        ((insertAll ⟨[], d, some N⟩ ((k0, v0) :: rest) (some ttl) now).get
          kv.1 now).1 = some kv.2 := by
  obtain ⟨hk0notin, hrestnodup⟩ := List.nodup_cons.mp hnodup
  obtain ⟨mid, last, rfl⟩ : ∃ mid last, rest = mid ++ [last] := by
    rcases List.eq_nil_or_concat rest with h | ⟨mid, last, h⟩
    · rw [h] at hlen
      simp at hlen
      omega
    · exact ⟨mid, last, by rw [h, List.concat_eq_append]⟩
  have hmidkeys : k0 ∉ mid.map Prod.fst := by
    intro hmem
    exact hk0notin (by simp [hmem])
  have hk0last : k0 ≠ last.1 := by
    intro he
    exact hk0notin (by simp [he])
  rw [List.map_append, List.map_singleton] at hrestnodup
  obtain ⟨hmidnodup, -, hdisj⟩ := List.nodup_append.mp hrestnodup
  have hlastnotmid : last.1 ∉ mid.map Prod.fst := by
    intro hmem
    exact hdisj hmem (List.mem_singleton_self last.1)
  have hfrontnodup : (k0 :: mid.map Prod.fst).Nodup := by
    rw [List.nodup_cons]
    exact ⟨fun hmem => hmidkeys hmem, hmidnodup⟩
  have hfront : insertAll (⟨[], d, some N⟩ : MemoryCache V)
      ((k0, v0) :: mid) (some ttl) now
      = ⟨((k0, v0) :: mid).map
          (fun p => (p.1, (⟨p.2, now + ttl⟩ : CacheEntry V))), d, some N⟩ := by
    have h := insertAll_below_capacity N d [] ((k0, v0) :: mid) ttl now
      (by
        simp only [List.length_nil, List.length_cons, Nat.zero_add]
        simp only [List.length_append, List.length_cons, List.length_nil] at hlen
        omega)
      (by intro kv _; simp [mapGet])
      (by
        rw [List.map_cons]
        exact hfrontnodup)
    simpa using h
  have hsplit : insertAll (⟨[], d, some N⟩ : MemoryCache V)
      ((k0, v0) :: (mid ++ [last])) (some ttl) now
      = MemoryCache.set
          (insertAll (⟨[], d, some N⟩ : MemoryCache V) ((k0, v0) :: mid) (some ttl) now)
          last.1 last.2 (some ttl) now := by
    rw [show (k0, v0) :: (mid ++ [last]) = ((k0, v0) :: mid) ++ [last] by
      rw [List.cons_append]]
    rw [insertAll_append]
    simp [insertAll]
  have hlastfresh : mapGet (mid.map
      (fun p => (p.1, (⟨p.2, now + ttl⟩ : CacheEntry V)))) last.1 = none := by
    apply mapGet_eq_none_of_not_mem
    intro hmem
    rw [List.map_map] at hmem
    exact hlastnotmid (by simpa using hmem)
  have hfinal : insertAll (⟨[], d, some N⟩ : MemoryCache V)
      ((k0, v0) :: (mid ++ [last])) (some ttl) now
      = ⟨(mid ++ [last]).map
          (fun p => (p.1, (⟨p.2, now + ttl⟩ : CacheEntry V))), d, some N⟩ := by
    rw [hsplit, hfront, List.map_cons]
    rw [set_at_capacity N d k0 ⟨v0, now + ttl⟩ _ last.1 last.2 ttl now
      (by omega)
      (by
        simp only [List.length_map]
        simp only [List.length_append, List.length_cons, List.length_nil] at hlen
        omega)
      hk0 hlastfresh]
    simp
  constructor
  · rw [hfinal]
    have hlastne : last.1 ≠ k0 := fun h => hk0last h.symm
    have hnone : mapGet (mid.map
          (fun p => (p.1, (⟨p.2, now + ttl⟩ : CacheEntry V)))
          ++ [(last.1, ⟨last.2, now + ttl⟩)]) k0 = none := by
      apply mapGet_append_none
      · apply mapGet_eq_none_of_not_mem
        intro hmem
        rw [List.map_map] at hmem
        exact hmidkeys (by simpa using hmem)
      · simp [mapGet, hlastne]
    simp only [List.map_append, List.map_singleton]
    simp [MemoryCache.get, hnone]
  · intro kv hkv
    rw [hfinal]
    have hsome := mapGet_entries (mid ++ [last]) (now + ttl)
      (by rw [List.map_append, List.map_singleton]; exact hrestnodup) kv hkv
    exact get_of_mapGet_some _ d (some N) kv.1 ⟨kv.2, now + ttl⟩ now hsome
      (by show ¬ now > now + ttl; omega)

/-- Witness for `c3_fifo_eviction` with `N = 1` and keys `a`, `b`. -/
theorem c3_fifo_eviction_witness :
    (((insertAll (⟨[], 5, some 1⟩ : MemoryCache Nat)
        [("a", 1), ("b", 2)] (some 10) 0).get "a" 0).1 = none)
    ∧ ∀ kv ∈ [("b", 2)],
        ((insertAll (⟨[], 5, some 1⟩ : MemoryCache Nat)
          [("a", 1), ("b", 2)] (some 10) 0).get kv.1 0).1 = some kv.2 :=
  c3_fifo_eviction 1 (by decide) 5 "a" 1 [("b", 2)] rfl (by decide) (by decide) 10 0

theorem mapGet_cleanup_aux {V : Type} (l : EntryMap V) (now : Nat)
    (hnodup : (l.map Prod.fst).Nodup) (k : String) (e : CacheEntry V) :
    mapGet (l.filter fun p => ! decide (now > p.2.expiresAt)) k = some e
      ↔ mapGet l k = some e ∧ now ≤ e.expiresAt := by
  induction l with
  | nil => simp [mapGet]
  | cons hd t ih =>
    rw [List.map_cons] at hnodup
    obtain ⟨hhd, htl⟩ := List.nodup_cons.mp hnodup
    by_cases hexp : now > hd.2.expiresAt
    · rw [List.filter_cons_of_neg (by simp [hexp])]
      by_cases he : hd.1 = k
      · subst he
        have hnone : mapGet (t.filter fun p => ! decide (now > p.2.expiresAt))
            hd.1 = none := by
          apply mapGet_eq_none_of_not_mem
          intro hmem
          exact hhd (List.map_subset _ (List.filter_sublist (l := t)).subset hmem)
        rw [hnone]
        simp only [mapGet, if_pos rfl]
        constructor
        · intro h
          simp at h
        · rintro ⟨h1, h2⟩
          obtain rfl : hd.2 = e := Option.some.inj h1
          omega
      · simp only [mapGet, he, if_false]
        exact ih htl
    · rw [List.filter_cons_of_pos (by simp [hexp])]
      by_cases he : hd.1 = k
      · subst he
        simp only [mapGet, if_pos rfl]
        constructor
        · intro h
          refine ⟨h, ?_⟩
          obtain rfl : hd.2 = e := Option.some.inj h
          omega
        · exact fun h => h.1
      · simp only [mapGet, he, if_false]
        exact ih htl

/-- C10. --  `size()` counts physically stored entries, including expired
ones: an expired entry still counts toward `size()` until it is observed by
`get`/`has` on its key (which removes it, decreasing the size by one) or
removed by `delete`, `clear` or `cleanup`; `cleanup()` removes exactly the
entries whose expiry has passed (`now > expiresAt`), and every unexpired
entry remains readable after `cleanup()`. -/
theorem c10_size_cleanup {V : Type} (c : MemoryCache V) (now : Nat)
    (hnodup : (c.cache.map Prod.fst).Nodup) :
    (∀ k e, mapGet c.cache k = some e → now > e.expiresAt →
        1 ≤ c.size
        ∧ (c.get k now).1 = none ∧ (c.get k now).2.size + 1 = c.size
        ∧ (c.has k now).1 = false ∧ (c.has k now).2.size + 1 = c.size
        ∧ (c.deleteKey k).size + 1 = c.size)
    ∧ MemoryCache.size (MemoryCache.clear c) = 0
    ∧ (∀ k e, mapGet (c.cleanup now).cache k = some e
        ↔ mapGet c.cache k = some e ∧ now ≤ e.expiresAt)
    ∧ (∀ k e, mapGet c.cache k = some e → now ≤ e.expiresAt →
        ((c.cleanup now).get k now).1 = some e.value) := by
  refine ⟨?_, rfl, ?_, ?_⟩
  · intro k e hmg hexp
    have hdel := mapDelete_length c.cache k e hmg
    refine ⟨by simp only [MemoryCache.size]; omega, ?_, ?_, ?_, ?_, ?_⟩
    · simp [MemoryCache.get, hmg, hexp]
    · simp [MemoryCache.get, hmg, hexp, MemoryCache.size, hdel]
    · simp [MemoryCache.has, hmg, hexp]
    · simp [MemoryCache.has, hmg, hexp, MemoryCache.size, hdel]
    · simp [MemoryCache.deleteKey, MemoryCache.size, hdel]
  · intro k e
    exact mapGet_cleanup_aux c.cache now hnodup k e
  · intro k e hmg hexp
    have hclean : mapGet (c.cleanup now).cache k = some e :=
      (mapGet_cleanup_aux c.cache now hnodup k e).mpr ⟨hmg, hexp⟩
    have hno : ¬ now > e.expiresAt := by omega
    simp [MemoryCache.get, hclean, hno]

/-- Witness for `c10_size_cleanup` on the cache `{a ↦ (1, expires 5),
b ↦ (2, expires 20)}` at time `10`: `a` is expired, `b` is not. -/
theorem c10_size_cleanup_witness :
    (1 ≤ (⟨[("a", ⟨1, 5⟩), ("b", ⟨2, 20⟩)], 1000, none⟩ : MemoryCache Nat).size
      ∧ ((⟨[("a", ⟨1, 5⟩), ("b", ⟨2, 20⟩)], 1000, none⟩ : MemoryCache Nat).get
          "a" 10).1 = none
      ∧ ((⟨[("a", ⟨1, 5⟩), ("b", ⟨2, 20⟩)], 1000, none⟩ : MemoryCache Nat).get
          "a" 10).2.size + 1
        = (⟨[("a", ⟨1, 5⟩), ("b", ⟨2, 20⟩)], 1000, none⟩ : MemoryCache Nat).size
      ∧ ((⟨[("a", ⟨1, 5⟩), ("b", ⟨2, 20⟩)], 1000, none⟩ : MemoryCache Nat).has
          "a" 10).1 = false
      ∧ ((⟨[("a", ⟨1, 5⟩), ("b", ⟨2, 20⟩)], 1000, none⟩ : MemoryCache Nat).has
          "a" 10).2.size + 1
        = (⟨[("a", ⟨1, 5⟩), ("b", ⟨2, 20⟩)], 1000, none⟩ : MemoryCache Nat).size
      ∧ ((⟨[("a", ⟨1, 5⟩), ("b", ⟨2, 20⟩)], 1000, none⟩ : MemoryCache Nat).deleteKey
          "a").size + 1
        = (⟨[("a", ⟨1, 5⟩), ("b", ⟨2, 20⟩)], 1000, none⟩ : MemoryCache Nat).size)
    ∧ (((⟨[("a", ⟨1, 5⟩), ("b", ⟨2, 20⟩)], 1000, none⟩ : MemoryCache Nat).cleanup
          10).get "b" 10).1 = some 2 :=
  ⟨(c10_size_cleanup (⟨[("a", ⟨1, 5⟩), ("b", ⟨2, 20⟩)], 1000, none⟩ : MemoryCache Nat)
      10 (by decide)).1 "a" ⟨1, 5⟩ (by decide) (by decide),
   (c10_size_cleanup (⟨[("a", ⟨1, 5⟩), ("b", ⟨2, 20⟩)], 1000, none⟩ : MemoryCache Nat)
      10 (by decide)).2.2.2 "b" ⟨2, 20⟩ (by decide) (by decide)⟩

/-- C5. --  With `maxAttempts = 3` and an operation failing on every
invocation with a retryable error, `execute` invokes the operation exactly 3
times and the error finally thrown is the very error produced by the 3rd
attempt, unchanged and unwrapped. -/
theorem c5_retry_exhaustion {α : Type} (cfg : RetryConfig)
    (hmax : cfg.maxAttempts = 3) (op : Nat → Except JsError α)
    (errs : Nat → JsError)
    (hop : ∀ n, op n = Except.error (errs n))
    (hretry : ∀ n, RetryPolicy.shouldRetry (errs n) = true) :
    RetryPolicy.execute cfg op = (Except.error (errs 2), 3) := by
  have step : ∀ calls r : Nat, r ≠ 0 →
      RetryPolicy.executeGo op calls (r + 1)
        = RetryPolicy.executeGo op (calls + 1) r := by
    intro calls r hr
    rw [RetryPolicy.executeGo, hop calls]
    have hcond : ¬ (r = 0 ∨ RetryPolicy.shouldRetry (errs calls) = false) := by
      simp [hr, hretry calls]
    exact if_neg hcond
  have s1 : RetryPolicy.executeGo op 0 3 = RetryPolicy.executeGo op 1 2 :=
    step 0 2 (by omega)
  have s2 : RetryPolicy.executeGo op 1 2 = RetryPolicy.executeGo op 2 1 :=
    step 1 1 (by omega)
  have s3 : RetryPolicy.executeGo op 2 1 = (Except.error (errs 2), 3) := by
    show RetryPolicy.executeGo op 2 (0 + 1) = _
    rw [RetryPolicy.executeGo, hop 2]
    exact if_pos (Or.inl rfl)
  rw [RetryPolicy.execute, hmax, s1, s2, s3]

/-- Witness for `c5_retry_exhaustion`: an operation always failing with
`HttpError` 503. -/
theorem c5_retry_exhaustion_witness :
    RetryPolicy.execute DEFAULT_RETRY_CONFIG
      (fun _ => (Except.error (JsError.httpError "boom" (some 503)) : Except JsError Nat))
      = (Except.error (JsError.httpError "boom" (some 503)), 3) :=
  c5_retry_exhaustion DEFAULT_RETRY_CONFIG rfl _
    (fun _ => JsError.httpError "boom" (some 503)) (fun _ => rfl)
    (fun _ =>
      (by decide : RetryPolicy.shouldRetry (JsError.httpError "boom" (some 503)) = true))

/-- C6. --  For every `maxAttempts ≥ 1`, an operation whose first invocation
fails with an `InvalidCredentialsError` (Unauthenticated) or a
`ValidationError` (Validation) is invoked exactly once: `shouldRetry` is false
for both kinds, so the loop breaks after the first attempt and rethrows that
error. -/
theorem c6_no_retry_unauthenticated_validation {α : Type} (cfg : RetryConfig)
    (hmax : 1 ≤ cfg.maxAttempts) (op : Nat → Except JsError α) (e : JsError)
    (hop : op 0 = Except.error e)
    (hkind : (∃ m, e = JsError.invalidCredentials m)
      ∨ (∃ m errs, e = JsError.validationError m errs)) :
    RetryPolicy.execute cfg op = (Except.error e, 1) := by
  obtain ⟨r, hr⟩ : ∃ r, cfg.maxAttempts = r + 1 :=
    ⟨cfg.maxAttempts - 1, by omega⟩
  have hsr : RetryPolicy.shouldRetry e = false := by
    rcases hkind with ⟨m, rfl⟩ | ⟨m, errs, rfl⟩ <;> rfl
  rw [RetryPolicy.execute, hr, RetryPolicy.executeGo, hop]
  exact if_pos (Or.inr hsr)

/-- Witness for `c6_no_retry_unauthenticated_validation`: default config
(`maxAttempts = 3`), operation failing with `InvalidCredentialsError`. -/
theorem c6_no_retry_witness :
    RetryPolicy.execute DEFAULT_RETRY_CONFIG
      (fun _ => (Except.error (JsError.invalidCredentials "Invalid credentials")
        : Except JsError Nat))
      = (Except.error (JsError.invalidCredentials "Invalid credentials"), 1) :=
  c6_no_retry_unauthenticated_validation DEFAULT_RETRY_CONFIG (by decide) _
    (JsError.invalidCredentials "Invalid credentials") rfl
    (Or.inl ⟨"Invalid credentials", rfl⟩)

/-- C7, counterexample. --  The claim states that the retryability predicate
holds for an `HttpError` if and only if its status code is absent or one of
408, 429, 502, 503, 504.  The source tests `!error.statusCode`, and the number
`0` is falsy in JavaScript: an `HttpError` with `statusCode = 0` is judged
retryable although its status is present and not in the retryable set, so the
stated equivalence fails. -/
theorem c7_counterexample :
    RetryPolicy.shouldRetry (JsError.httpError "net" (some 0)) = true
    ∧ (some 0 ≠ (none : Option Nat))
    ∧ ¬ (0 ∈ [408, 429, 502, 503, 504]) := by
  decide

/-- C7 (amended). --  The retryability predicate holds for a Transport
failure (`HttpError`) if and only if its status code is absent, or is `0`
(falsy, treated like an absent status by `!error.statusCode`), or equals one
of 408, 429, 502, 503, 504; for every failure that is not a Transport failure
the predicate is false. -/
theorem c7_retryability :
    (∀ (m : String) (sc : Option Nat),
      RetryPolicy.shouldRetry (JsError.httpError m sc) = true
        ↔ sc = none ∨ sc = some 0
          ∨ ∃ n, sc = some n ∧ n ∈ [408, 429, 502, 503, 504])
    ∧ (∀ e : JsError, (∀ m sc, e ≠ JsError.httpError m sc) →
        RetryPolicy.shouldRetry e = false) := by
  constructor
  · intro m sc
    cases sc with
    | none => simp [RetryPolicy.shouldRetry, RetryPolicy.isRetryableStatusCode,
        errorStatusCode, errorName]
    | some n =>
      by_cases h0 : n = 0
      · subst h0
        simp [RetryPolicy.shouldRetry, RetryPolicy.isRetryableStatusCode,
          errorStatusCode, errorName]
      · have hsr : RetryPolicy.shouldRetry (JsError.httpError m (some n))
            = [408, 429, 502, 503, 504].contains n := by
          simp [RetryPolicy.shouldRetry, RetryPolicy.isRetryableStatusCode,
            errorStatusCode, errorName, h0]
        have hmemiff : ([408, 429, 502, 503, 504].contains n = true)
            ↔ n ∈ [408, 429, 502, 503, 504] := by
          simp [List.contains, List.elem_iff]
        rw [hsr, hmemiff]
        constructor
        · intro hmem
          exact Or.inr (Or.inr ⟨n, rfl, hmem⟩)
        · rintro (h | h | ⟨n', hn', hmem⟩)
          · cases h
          · exact absurd (Option.some.inj h) h0
          · obtain rfl : n = n' := Option.some.inj hn'
            exact hmem
  · intro e he
    cases e with
    | httpError m sc => exact absurd rfl (he m sc)
    | invalidCredentials m => rfl
    | validationError m errs => rfl
    | apiClientError m sc => rfl
    | genericError m => rfl

/-- Witness for `c7_retryability`: status 503 is retryable; a plain `Error`
(Unknown kind) is not. -/
theorem c7_retryability_witness :
    (RetryPolicy.shouldRetry (JsError.httpError "x" (some 503)) = true
      ↔ some 503 = none ∨ some 503 = some 0
        ∨ ∃ n, some 503 = some n ∧ n ∈ [408, 429, 502, 503, 504])
    ∧ RetryPolicy.shouldRetry (JsError.genericError "e") = false :=
  ⟨c7_retryability.1 "x" (some 503),
   c7_retryability.2 (JsError.genericError "e") (fun _ _ => by simp)⟩

/-- C8, counterexample. --  The claim asserts backoff monotonicity
(`delay(i) ≤ delay(j)` for `i < j`, ignoring jitter) for every `RetryConfig`
with all-positive fields.  With `backoffMultiplier = 1/2 > 0` the exponential
factor shrinks: `delay(1) = min(4·(1/2)^0, 100) = 4` but
`delay(2) = min(4·(1/2)^1, 100) = 2 < 4`. -/
theorem c8_counterexample :
    (0 < (⟨3, 4, 100, 1/2, 1⟩ : RetryConfig).baseDelayMs
      ∧ 0 < (⟨3, 4, 100, 1/2, 1⟩ : RetryConfig).maxDelayMs
      ∧ 0 < (⟨3, 4, 100, 1/2, 1⟩ : RetryConfig).backoffMultiplier
      ∧ 0 < (⟨3, 4, 100, 1/2, 1⟩ : RetryConfig).jitterMs
      ∧ 1 ≤ (⟨3, 4, 100, 1/2, 1⟩ : RetryConfig).maxAttempts)
    ∧ RetryPolicy.calculateDelay (⟨3, 4, 100, 1/2, 1⟩ : RetryConfig) 2 0
        < RetryPolicy.calculateDelay (⟨3, 4, 100, 1/2, 1⟩ : RetryConfig) 1 0 := by
  constructor
  · exact ⟨by norm_num, by norm_num, by norm_num, by norm_num, by norm_num⟩
  · show min ((4 : ℚ) * (1/2) ^ (2 - 1) + 0 * 1) 100
        < min ((4 : ℚ) * (1/2) ^ (1 - 1) + 0 * 1) 100
    norm_num

/-- C8 (amended). --  For every attempt `n ≥ 1` the delay equals
`min(maxDelayMs, baseDelayMs · backoffMultiplier^(n-1) + r)` with
`r = rand · jitterMs ∈ [0, jitterMs)` for the fresh uniform draw
`rand ∈ [0, 1)`; and ignoring jitter (`rand = 0`), for attempts `i < j`,
`delay(i) ≤ delay(j) ≤ maxDelayMs` — provided the fields are positive AND
`backoffMultiplier ≥ 1` (monotonicity fails for multipliers below 1). -/
theorem c8_backoff_monotone (cfg : RetryConfig) (hb : 0 < cfg.baseDelayMs)
    (_hmx : 0 < cfg.maxDelayMs) (hm1 : 1 ≤ cfg.backoffMultiplier)
    (hj : 0 < cfg.jitterMs) :
    (∀ (n : Nat) (rand : ℚ), 1 ≤ n → 0 ≤ rand → rand < 1 →
      RetryPolicy.calculateDelay cfg n rand
          = min cfg.maxDelayMs
              (cfg.baseDelayMs * cfg.backoffMultiplier ^ (n - 1)
                + rand * cfg.jitterMs)
        ∧ 0 ≤ rand * cfg.jitterMs ∧ rand * cfg.jitterMs < cfg.jitterMs)
    ∧ (∀ i j : Nat, 1 ≤ i → i < j →
        RetryPolicy.calculateDelay cfg i 0 ≤ RetryPolicy.calculateDelay cfg j 0
        ∧ RetryPolicy.calculateDelay cfg j 0 ≤ cfg.maxDelayMs) := by
  constructor
  · intro n rand h1 hr0 hr1
    refine ⟨?_, mul_nonneg hr0 hj.le, ?_⟩
    · show min (cfg.baseDelayMs * cfg.backoffMultiplier ^ (n - 1)
          + rand * cfg.jitterMs) cfg.maxDelayMs = _
      exact min_comm _ _
    · calc rand * cfg.jitterMs < 1 * cfg.jitterMs :=
          mul_lt_mul_of_pos_right hr1 hj
        _ = cfg.jitterMs := one_mul _
  · intro i j hi hij
    have hpow : cfg.backoffMultiplier ^ (i - 1) ≤ cfg.backoffMultiplier ^ (j - 1) :=
      pow_le_pow_right₀ hm1 (by omega)
    constructor
    · show min (cfg.baseDelayMs * cfg.backoffMultiplier ^ (i - 1)
            + 0 * cfg.jitterMs) cfg.maxDelayMs
        ≤ min (cfg.baseDelayMs * cfg.backoffMultiplier ^ (j - 1)
            + 0 * cfg.jitterMs) cfg.maxDelayMs
      apply min_le_min _ le_rfl
      simp only [zero_mul, add_zero]
      exact mul_le_mul_of_nonneg_left hpow hb.le
    · show min (cfg.baseDelayMs * cfg.backoffMultiplier ^ (j - 1)
          + 0 * cfg.jitterMs) cfg.maxDelayMs ≤ cfg.maxDelayMs
      exact min_le_right _ _

/-- Witness for `c8_backoff_monotone` at the default configuration, attempt
pair `(1, 2)` and draw `rand = 1/2`. -/
theorem c8_backoff_monotone_witness :
    (RetryPolicy.calculateDelay DEFAULT_RETRY_CONFIG 1 (1/2)
        = min DEFAULT_RETRY_CONFIG.maxDelayMs
            (DEFAULT_RETRY_CONFIG.baseDelayMs
              * DEFAULT_RETRY_CONFIG.backoffMultiplier ^ (1 - 1)
              + (1/2) * DEFAULT_RETRY_CONFIG.jitterMs)
      ∧ 0 ≤ (1/2 : ℚ) * DEFAULT_RETRY_CONFIG.jitterMs
      ∧ (1/2 : ℚ) * DEFAULT_RETRY_CONFIG.jitterMs < DEFAULT_RETRY_CONFIG.jitterMs)
    ∧ (RetryPolicy.calculateDelay DEFAULT_RETRY_CONFIG 1 0
        ≤ RetryPolicy.calculateDelay DEFAULT_RETRY_CONFIG 2 0
      ∧ RetryPolicy.calculateDelay DEFAULT_RETRY_CONFIG 2 0
        ≤ DEFAULT_RETRY_CONFIG.maxDelayMs) :=
  ⟨(c8_backoff_monotone DEFAULT_RETRY_CONFIG (by norm_num [DEFAULT_RETRY_CONFIG])
      (by norm_num [DEFAULT_RETRY_CONFIG]) (by norm_num [DEFAULT_RETRY_CONFIG])
      (by norm_num [DEFAULT_RETRY_CONFIG])).1 1 (1/2) (by norm_num) (by norm_num)
      (by norm_num),
   (c8_backoff_monotone DEFAULT_RETRY_CONFIG (by norm_num [DEFAULT_RETRY_CONFIG])
      (by norm_num [DEFAULT_RETRY_CONFIG]) (by norm_num [DEFAULT_RETRY_CONFIG])
      (by norm_num [DEFAULT_RETRY_CONFIG])).2 1 2 (by norm_num) (by norm_num)⟩

/-- C4, counterexample. --  The claim states that a raw failure with HTTP
status 401 is surfaced by every operation as `InvalidCredentialsError`, never
as an `ApiClientError` carrying status 401.  `ResourceRepository.handleError`
(used by every repository CRUD operation) and the catch block of
`AuthService.register` have no 401 case: both return an `ApiClientError`
carrying status 401. -/
theorem c4_counterexample :
    (ResourceRepository.handleError (JsError.httpError "Unauthorized" (some 401))
        = JsError.apiClientError "Unauthorized" (some 401))
    ∧ (AuthService.registerCatch (JsError.httpError "Unauthorized" (some 401))
        = JsError.apiClientError "Unauthorized" (some 401))
    ∧ errorName (JsError.apiClientError "Unauthorized" (some 401))
        ≠ "InvalidCredentialsError" := by
  exact ⟨rfl, rfl, by decide⟩

/-- C4 (amended). --  Only `AuthService.login` and the legacy flat client
map HTTP 401 to `InvalidCredentialsError`; `AuthService.register` and the
repository CRUD operations surface a 401 `HttpError` as `ApiClientError`
carrying status code 401. -/
theorem c4_unauthenticated_mapping :
    (∀ m : String, AuthService.loginCatch (JsError.httpError m (some 401))
        = JsError.invalidCredentials "Invalid email or password")
    ∧ (∀ (m : Option String) (errs : Option (List ValidationErrorDetail)),
        ZDataClient.handleHttpError (some ⟨401, m, errs⟩)
          = JsError.invalidCredentials
              (m.getD "Authentication failed: Invalid credentials"))
    ∧ (∀ (m : String) (sc : Option Nat),
        AuthService.registerCatch (JsError.httpError m sc)
          = JsError.apiClientError m sc)
    ∧ (∀ (m : String) (sc : Option Nat),
        ResourceRepository.handleError (JsError.httpError m sc)
          = JsError.apiClientError m sc) := by
  refine ⟨?_, ?_, ?_, ?_⟩
  · intro m
    simp [AuthService.loginCatch]
  · intro m errs
    rfl
  · intro m sc
    rfl
  · intro m sc
    rfl

/-- C9, counterexample. --  The claim states that every surfaced
`ValidationError` carries a non-empty detail array.  The legacy flat client
maps an HTTP 400 whose body has no `errors` field to
`ValidationError(message, [])`, and `validateSafely` maps a non-Zod failure
to a `ValidationError` with the unknown-validation message whose `errors` default to
`[]`: both surface a Validation-kind error with an empty detail list. -/
theorem c9_counterexample :
    validationDetails (ZDataClient.handleHttpError (some ⟨400, none, none⟩))
        = some []
    ∧ Validator.validateSafely
        (ParseOutcome.otherError (JsError.genericError "x") : ParseOutcome Unit)
        = Except.error (JsError.validationError "Unknown validation error" []) :=
  ⟨rfl, rfl⟩

/-- C9 (amended). --  A `ValidationError` produced by the schema validator
from a `ZodError` carries one detail per issue, in order, and is non-empty
whenever the `ZodError` has at least one issue; a `ValidationError` surfaced
from an HTTP 400 response carries the `errors` list of the response body,
which defaults to the empty list when the body has none. -/
theorem c9_validation_details (issues : List ZodIssue) (hne : issues ≠ [])
    (m : Option String) (errs : Option (List ValidationErrorDetail)) :
    (Validator.validate (ParseOutcome.zodError issues : ParseOutcome Unit)
        = Except.error (JsError.validationError "Validation failed"
            (Validator.mapZodErrorsToValidationDetails issues))
      ∧ (Validator.mapZodErrorsToValidationDetails issues).length = issues.length
      ∧ Validator.mapZodErrorsToValidationDetails issues ≠ [])
    ∧ ZDataClient.handleHttpError (some ⟨400, m, errs⟩)
        = JsError.validationError
            (m.getD "Validation failed: Invalid request data") (errs.getD []) := by
  refine ⟨⟨rfl, ?_, ?_⟩, rfl⟩
  · simp [Validator.mapZodErrorsToValidationDetails]
  · simp [Validator.mapZodErrorsToValidationDetails, hne]

/-- Witness for `c9_validation_details` with a single-issue `ZodError` and a
bodyless 400 response. -/
theorem c9_validation_details_witness :
    (Validator.validate
        (ParseOutcome.zodError [⟨"too_small", ["name"], "Required"⟩]
          : ParseOutcome Unit)
        = Except.error (JsError.validationError "Validation failed"
            (Validator.mapZodErrorsToValidationDetails
              [⟨"too_small", ["name"], "Required"⟩]))
      ∧ (Validator.mapZodErrorsToValidationDetails
          [⟨"too_small", ["name"], "Required"⟩]).length
          = ([⟨"too_small", ["name"], "Required"⟩] : List ZodIssue).length
      ∧ Validator.mapZodErrorsToValidationDetails
          [⟨"too_small", ["name"], "Required"⟩] ≠ [])
    ∧ ZDataClient.handleHttpError (some ⟨400, none, none⟩)
        = JsError.validationError
            ((none : Option String).getD "Validation failed: Invalid request data")
            ((none : Option (List ValidationErrorDetail)).getD []) :=
  c9_validation_details [⟨"too_small", ["name"], "Required"⟩] (by decide) none none

/-- C1 -- (evaluation at the failing input).  With caching and retry enabled
and an empty cache, a `findRecordById` whose transport fails with `HttpError`
503 on the first two requests and succeeds on the third does NOT behave as
the specification describes: the first failure is rewrapped by
`ResourceRepository.handleError` into an `ApiClientError` before the retry
policy inspects it, `shouldRetry` (which requires the error name to be `HttpError`)
returns false, and the client performs exactly one transport request, caches
nothing, and surfaces `ApiClientError` 503.  The second conjunct shows the
retry policy itself would have retried to success on the third attempt had it
been given the raw `HttpError`s, and the third shows a cached read is served
with no transport request. -/
theorem c1_no_retry_evaluation :
    (ZDataClient.findRecordById script503 "users" "1" 0
        ((⟨[], 300000, none⟩ : MemoryCache Nat), 0)
      = (Except.error (JsError.apiClientError "Service Unavailable" (some 503)),
          ((⟨[], 300000, none⟩ : MemoryCache Nat), 1)))
    ∧ (RetryPolicy.execute DEFAULT_RETRY_CONFIG script503 = (Except.ok 42, 3))
    ∧ (ZDataClient.findRecordById script503 "users" "1" 0
        ((⟨[], 300000, none⟩ : MemoryCache Nat).set "users:1" 42 (some 300000) 0, 0)
      = (Except.ok 42,
          ((⟨[], 300000, none⟩ : MemoryCache Nat).set "users:1" 42 (some 300000) 0, 0))) :=
  ⟨rfl, rfl, rfl⟩
